import Mathlib

/-!
Verification of the AquaDepth sensor data processing pipeline
(`src/lib/sensorProcessing.ts`) against its specification.

JavaScript numbers are modelled as real numbers (`ℝ`); integer window sizes
are modelled as `ℤ`.  Real-number comparisons are `Prop`-valued, so the
outlier flag is a `Prop` field.  Division by zero in `ℝ` yields `0`; in the
JavaScript source the corresponding expression yields `NaN`, and in both
semantics the comparison `_ > threshold` is false, so the observable
outlier flag agrees.

The only fallible step of the pipeline is the calibration lookup performed
through the supabase client.  The supabase query resolves (never throws)
with a record carrying a `data` field and an `error` field; the pipeline is
therefore embedded as a function of that resolved record, passed in as an
explicit argument.
-/

namespace AquaDepth

/-- One unprocessed sample from a physical sensor (`RawSensorData`). -/
structure RawSensorData where
  raw_depth : ℝ
  raw_turbidity : ℝ
  raw_temperature : ℝ
  voltage : ℝ
  battery_level : ℝ
  signal_strength : ℝ

/-- The pipeline's output record (`ProcessedSensorData`).  The outlier flag
is a real-number comparison, hence `Prop`-valued here. -/
structure ProcessedSensorData where
  depth : ℝ
  turbidity : ℝ
  temperature : ℝ
  sediment_level : ℝ
  quality_score : ℝ
  is_outlier : Prop

/-- One calibration row as used by `processSensorData`: only the
`offset_value` and `scale_factor` columns are read. -/
structure CalibrationRow where
  offset_value : ℝ
  scale_factor : ℝ

/-- The resolved value of the supabase calibration query
`from('sensor_calibration').select('*').eq('sensor_id', sensorId)
.order('created_at', descending).limit(1)`: a `data` field (null or the
list of returned rows, most recent first) and an `error` field (null or a
query/transport error).  The supabase client resolves with
`data = null, error = some e` on an I/O failure and with
`data = some rows, error = none` on success. -/
structure CalibrationQueryResult where
  data : Option (List CalibrationRow)
  error : Option String

/-- Moving Average Filter state: the configured window size and the
internal ordered sequence of values. -/
structure MovingAverageFilter where
  windowSize : ℤ
  values : List ℝ

/-- The `MovingAverageFilter` constructor: stores the window size and
starts with an empty sequence.  The source performs no validation and
never throws, so the failure channel (`Except`) is never used: every
input, including non-positive window sizes, yields `.ok`. -/
def MovingAverageFilter.construct (windowSize : ℤ) :
    Except String MovingAverageFilter :=
  .ok ⟨windowSize, []⟩

/-- `MovingAverageFilter.process`: push the value, shift once if the length
now exceeds the window size, return the new state and the mean of the
current sequence contents. -/
noncomputable def MovingAverageFilter.process (f : MovingAverageFilter) (value : ℝ) :
    MovingAverageFilter × ℝ :=
  let pushed := f.values ++ [value]
  let vals := if (pushed.length : ℤ) > f.windowSize then pushed.tail else pushed
  (⟨f.windowSize, vals⟩, vals.sum / vals.length)

/-- Z-score outlier detection (`isOutlier`).  The source's default
threshold argument is 3; callers here pass it explicitly. -/
def isOutlier (value mean stdDev threshold : ℝ) : Prop :=
  |(value - mean) / stdDev| > threshold

/-- The result record of `calculateStats`. -/
structure Stats where
  mean : ℝ
  stdDev : ℝ

/-- `calculateStats`: arithmetic mean, and the square root of the variance
obtained by dividing the sum of squared deviations by the length N. -/
noncomputable def calculateStats (values : List ℝ) : Stats :=
  let mean := values.sum / (values.length : ℝ)
  let variance := (values.map (fun b => (b - mean) ^ 2)).sum / (values.length : ℝ)
  ⟨mean, Real.sqrt variance⟩

/-- The calibration actually used by `processSensorData`:
`calibrationData?.[0] || { offset_value: 0, scale_factor: 1 }`.
Only the `data` field of the query result is consulted; the `error` field
is discarded by the destructuring in the source. -/
def resolveCalibration (res : CalibrationQueryResult) : CalibrationRow :=
  ((res.data.getD []).head?).getD ⟨0, 1⟩

/-- `processSensorData`, embedded as a function of the raw reading and the
resolved calibration query result.  Fresh filter instances are constructed
on every invocation, exactly as in the source. -/
noncomputable def processSensorData (rawData : RawSensorData)
    (calibrationResult : CalibrationQueryResult) : ProcessedSensorData :=
  let calibration := resolveCalibration calibrationResult
  let depthFilter : MovingAverageFilter := ⟨5, []⟩
  let turbidityFilter : MovingAverageFilter := ⟨5, []⟩
  let temperatureFilter : MovingAverageFilter := ⟨3, []⟩
  let filteredDepth := (depthFilter.process rawData.raw_depth).2
  let calibratedDepth :=
    filteredDepth * calibration.scale_factor + calibration.offset_value
  let filteredTurbidity := (turbidityFilter.process rawData.raw_turbidity).2
  let filteredTemperature :=
    (temperatureFilter.process rawData.raw_temperature).2
  let sedimentLevel := filteredTurbidity * 0.8 + calibratedDepth * 0.2
  let qualityScore :=
    min 1 (rawData.signal_strength / 100 * 0.7 +
      rawData.battery_level / 100 * 0.3)
  let st := calculateStats [filteredDepth, rawData.raw_depth]
  let isDepthOutlier := isOutlier rawData.raw_depth st.mean st.stdDev 3
  ⟨calibratedDepth, filteredTurbidity, filteredTemperature, sedimentLevel,
    qualityScore, isDepthOutlier⟩

/-- Feed a list of inputs through one filter instance, collecting the
output of each `process` call. -/
noncomputable def processList (f : MovingAverageFilter) : List ℝ → List ℝ
  | [] => []
  | x :: xs => (f.process x).2 :: processList (f.process x).1 xs

/-- Feed a list of inputs through one filter instance, keeping only the
final filter state. -/
noncomputable def processAll (f : MovingAverageFilter) : List ℝ → MovingAverageFilter
  | [] => f
  | x :: xs => processAll (f.process x).1 xs

/-- The last `n` elements of a list (all of it when it is shorter). -/
def lastN (n : ℕ) (l : List ℝ) : List ℝ := l.drop (l.length - n)

theorem lastN_length (n : ℕ) (l : List ℝ) :
    (lastN n l).length = min n l.length := by
  rw [lastN, List.length_drop]
  omega

theorem lastN_of_length_le (n : ℕ) (l : List ℝ) (h : l.length ≤ n) :
    lastN n l = l := by
  have h0 : l.length - n = 0 := by omega
  rw [lastN, h0, List.drop_zero]

theorem lastN_eq_reverse_take (n : ℕ) (l : List ℝ) :
    lastN n l = (l.reverse.take n).reverse := by
  rw [List.take_reverse, List.reverse_reverse, lastN]

theorem lastN_append_lastN (n : ℕ) (v : List ℝ) (x : ℝ) :
    lastN n (lastN n v ++ [x]) = lastN n (v ++ [x]) := by
  simp only [lastN_eq_reverse_take, List.reverse_append, List.reverse_reverse,
    List.reverse_cons, List.nil_append, List.reverse_nil, List.singleton_append]
  cases n with
  | zero => simp
  | succ m =>
      simp only [List.take_succ_cons, List.take_take]
      have hm : min m (m + 1) = m := by omega
      rw [hm]

/-- One `process` step on a filter whose sequence respects the size cap:
the new sequence is the last `n` elements of the pushed sequence, and the
output is its mean. -/
theorem process_eq (n : ℕ) (v : List ℝ) (hv : v.length ≤ n)
    (x : ℝ) :
    (MovingAverageFilter.mk (n : ℤ) v).process x =
      (⟨(n : ℤ), lastN n (v ++ [x])⟩,
        (lastN n (v ++ [x])).sum / (lastN n (v ++ [x])).length) := by
  rcases lt_or_eq_of_le hv with h | h
  · have hc : ¬ ((((v ++ [x]).length : ℕ) : ℤ) > ((n : ℕ) : ℤ)) := by
      simp [List.length_append]
      omega
    have hl : lastN n (v ++ [x]) = v ++ [x] :=
      lastN_of_length_le n (v ++ [x]) (by simp [List.length_append]; omega)
    simp only [MovingAverageFilter.process, hc, if_false, hl]
  · have hc : (((v ++ [x]).length : ℕ) : ℤ) > ((n : ℕ) : ℤ) := by
      simp [List.length_append]
      omega
    have hl : lastN n (v ++ [x]) = (v ++ [x]).tail := by
      have h1 : (v ++ [x]).length - n = 1 := by
        rw [List.length_append]
        simp
        omega
      rw [lastN, h1, List.drop_one]
    simp only [MovingAverageFilter.process, hc, if_true, hl]

/-- A `process` call on an empty filter with window size at least 1 keeps
the single value and returns it unchanged. -/
theorem process_nil (n : ℕ) (hn : 1 ≤ n) (x : ℝ) :
    (MovingAverageFilter.mk (n : ℤ) []).process x = (⟨(n : ℤ), [x]⟩, x) := by
  have h := process_eq n [] (by simp) x
  have hl : lastN n ([] ++ [x]) = [x] := by
    refine lastN_of_length_le n _ ?_
    simp
    omega
  rw [h, hl]
  simp

/-- `calculateStats` on a two-element sample: the mean is the midpoint and
the population standard deviation is half the gap. -/
theorem calculateStats_pair (a b : ℝ) :
    calculateStats [a, b] = ⟨(a + b) / 2, |b - a| / 2⟩ := by
  unfold calculateStats
  simp only [List.sum_cons, List.sum_nil, List.map_cons, List.map_nil,
    List.length_cons, List.length_nil, Stats.mk.injEq]
  norm_num
  have hE : (a - (a + b) / (2:ℝ)) ^ 2 + (b - (a + b) / 2) ^ 2 =
      2 * ((b - a) / 2) ^ 2 := by ring
  rw [hE, Real.sqrt_mul (by norm_num : (0:ℝ) ≤ 2), Real.sqrt_sq_eq_abs,
    mul_div_cancel_left₀ _ (by positivity : Real.sqrt 2 ≠ 0), abs_div]
  norm_num

/-- State evolution of a filter that already holds the last `n` elements of
a processed history `p`: after further inputs `xs` it holds the last `n`
elements of `p ++ xs`. -/
theorem processAll_lastN (n : ℕ) :
    ∀ (xs p : List ℝ),
      processAll ⟨(n : ℤ), lastN n p⟩ xs = ⟨(n : ℤ), lastN n (p ++ xs)⟩ := by
  intro xs
  induction xs with
  | nil => intro p; simp [processAll]
  | cons x xs ih =>
      intro p
      have hv : (lastN n p).length ≤ n := by
        rw [lastN_length]
        omega
      have hstep := process_eq n (lastN n p) hv x
      rw [processAll, hstep]
      simp only [lastN_append_lastN]
      have := ih (p ++ [x])
      rw [this]
      simp

/-- Output trace of a filter that already holds the last `n` elements of a
processed history `p`: the `k`-th further output is the mean of the last
`n` elements of the history extended by the first `k+1` further inputs. -/
theorem processList_getElem (n : ℕ) :
    ∀ (xs p : List ℝ) (k : ℕ), k < xs.length →
      (processList ⟨(n : ℤ), lastN n p⟩ xs)[k]? =
        some ((lastN n (p ++ xs.take (k + 1))).sum /
          ((lastN n (p ++ xs.take (k + 1))).length : ℝ)) := by
  intro xs
  induction xs with
  | nil => intro p k hk; simp at hk
  | cons x xs ih =>
      intro p k hk
      have hv : (lastN n p).length ≤ n := by
        rw [lastN_length]
        omega
      have hstep := process_eq n (lastN n p) hv x
      rw [processList, hstep]
      simp only [lastN_append_lastN]
      cases k with
      | zero => simp
      | succ m =>
          have hm : m < xs.length := by
            simp at hk
            omega
          have := ih (p ++ [x]) m hm
          simp only [List.getElem?_cons_succ]
          rw [this]
          simp

/-- Closed form of one `processSensorData` call: the fresh filters return
their single input unchanged, so every smoothed value equals the raw one
and the outlier sample is the degenerate pair of two equal depths. -/
theorem processSensorData_eq (raw : RawSensorData)
    (res : CalibrationQueryResult) :
    processSensorData raw res =
      { depth := raw.raw_depth * (resolveCalibration res).scale_factor +
          (resolveCalibration res).offset_value,
        turbidity := raw.raw_turbidity,
        temperature := raw.raw_temperature,
        sediment_level := raw.raw_turbidity * 0.8 +
          (raw.raw_depth * (resolveCalibration res).scale_factor +
            (resolveCalibration res).offset_value) * 0.2,
        quality_score := min 1 (raw.signal_strength / 100 * 0.7 +
          raw.battery_level / 100 * 0.3),
        is_outlier := isOutlier raw.raw_depth
          (calculateStats [raw.raw_depth, raw.raw_depth]).mean
          (calculateStats [raw.raw_depth, raw.raw_depth]).stdDev 3 } := by
  have h5d := process_nil 5 (by norm_num) raw.raw_depth
  have h5t := process_nil 5 (by norm_num) raw.raw_turbidity
  have h3t := process_nil 3 (by norm_num) raw.raw_temperature
  norm_num at h5d h5t h3t
  simp only [processSensorData, h5d, h5t, h3t]

/-- C1: the claim says a transient I/O failure of the calibration lookup is
propagated unchanged and the identity calibration is substituted only on a
successful lookup with zero rows.  The source destructures only the `data`
field of the query result and discards the `error` field, so a failed
lookup (`data = null`, `error` set) is indistinguishable from a successful
empty one: the identity calibration is silently substituted and a normal
processed reading is returned instead of a propagated failure. -/
theorem c1_transient_io_error_masked (raw : RawSensorData) (e : String) :
    resolveCalibration ⟨none, some e⟩ = ⟨0, 1⟩ ∧
    processSensorData raw ⟨none, some e⟩ =
      processSensorData raw ⟨some [], none⟩ := by
  exact ⟨rfl, rfl⟩

/-- C3: fresh Smoothing Filter instances are constructed on every
invocation of `processSensorData`, so each smoothed channel value equals
the corresponding raw input, and the returned depth is
`raw_depth * scale_factor + offset`. -/
theorem c3_fresh_filters_degenerate (raw : RawSensorData)
    (res : CalibrationQueryResult) :
    ((⟨5, []⟩ : MovingAverageFilter).process raw.raw_depth).2 =
      raw.raw_depth ∧
    ((⟨5, []⟩ : MovingAverageFilter).process raw.raw_turbidity).2 =
      raw.raw_turbidity ∧
    ((⟨3, []⟩ : MovingAverageFilter).process raw.raw_temperature).2 =
      raw.raw_temperature ∧
    (processSensorData raw res).depth =
      raw.raw_depth * (resolveCalibration res).scale_factor +
        (resolveCalibration res).offset_value ∧
    (processSensorData raw res).turbidity = raw.raw_turbidity ∧
    (processSensorData raw res).temperature = raw.raw_temperature := by
  have h5d := process_nil 5 (by norm_num) raw.raw_depth
  have h5t := process_nil 5 (by norm_num) raw.raw_turbidity
  have h3t := process_nil 3 (by norm_num) raw.raw_temperature
  norm_num at h5d h5t h3t
  simp only [processSensorData_eq, h5d, h5t, h3t]
  simp

/-- C9: the quality score is
`min(1, 0.7 * (signal_strength/100) + 0.3 * (battery_level/100))`, and for
non-negative signal strength and battery level (including values above
100) it lies in [0, 1]. -/
theorem c9_quality_score_bounds (raw : RawSensorData)
    (res : CalibrationQueryResult) :
    (processSensorData raw res).quality_score =
      min 1 (0.7 * (raw.signal_strength / 100) +
        0.3 * (raw.battery_level / 100)) ∧
    (0 ≤ raw.signal_strength → 0 ≤ raw.battery_level →
      0 ≤ (processSensorData raw res).quality_score ∧
        (processSensorData raw res).quality_score ≤ 1) := by
  simp only [processSensorData_eq]
  constructor
  · have h : raw.signal_strength / 100 * 0.7 + raw.battery_level / 100 * 0.3 =
        0.7 * (raw.signal_strength / 100) + 0.3 * (raw.battery_level / 100) := by
      ring
    rw [h]
  · intro hs hb
    constructor
    · refine le_min (by norm_num) ?_
      have h1 : (0:ℝ) ≤ raw.signal_strength / 100 * 0.7 :=
        mul_nonneg (div_nonneg hs (by norm_num)) (by norm_num)
      have h2 : (0:ℝ) ≤ raw.battery_level / 100 * 0.3 :=
        mul_nonneg (div_nonneg hb (by norm_num)) (by norm_num)
      linarith
    · exact min_le_left _ _

/-- Witness for C9 at a concrete reading whose signal strength (120) and
battery level (150) both exceed 100 and an empty calibration lookup. -/
theorem c9_witness :
    0 ≤ (processSensorData ⟨100, 5, 20, 12, 150, 120⟩
        ⟨some [], none⟩).quality_score ∧
      (processSensorData ⟨100, 5, 20, 12, 150, 120⟩
        ⟨some [], none⟩).quality_score ≤ 1 :=
  (c9_quality_score_bounds ⟨100, 5, 20, 12, 150, 120⟩ ⟨some [], none⟩).2
    (by norm_num) (by norm_num)

/-- C10: calibration is applied to the smoothed depth only
(`calibrated_depth = smoothed_depth * scale_factor + offset`), turbidity
and temperature are emitted smoothed but uncalibrated, and under the
identity calibration the calibrated depth equals the smoothed depth. -/
theorem c10_calibration_on_depth_only (raw : RawSensorData)
    (res : CalibrationQueryResult) :
    (processSensorData raw res).depth =
      ((⟨5, []⟩ : MovingAverageFilter).process raw.raw_depth).2 *
        (resolveCalibration res).scale_factor +
        (resolveCalibration res).offset_value ∧
    (processSensorData raw res).turbidity =
      ((⟨5, []⟩ : MovingAverageFilter).process raw.raw_turbidity).2 ∧
    (processSensorData raw res).temperature =
      ((⟨3, []⟩ : MovingAverageFilter).process raw.raw_temperature).2 ∧
    (resolveCalibration res = ⟨0, 1⟩ →
      (processSensorData raw res).depth =
        ((⟨5, []⟩ : MovingAverageFilter).process raw.raw_depth).2) := by
  have h5d := process_nil 5 (by norm_num) raw.raw_depth
  have h5t := process_nil 5 (by norm_num) raw.raw_turbidity
  have h3t := process_nil 3 (by norm_num) raw.raw_temperature
  norm_num at h5d h5t h3t
  simp only [processSensorData_eq, h5d, h5t, h3t]
  refine ⟨by simp, by simp, by simp, fun hid => ?_⟩
  rw [hid]
  simp

/-- Witness for C10 at a concrete reading and a lookup returning one
identity calibration row. -/
theorem c10_witness :
    (processSensorData ⟨40, 5, 20, 12, 80, 90⟩
        ⟨some [⟨0, 1⟩], none⟩).depth =
      ((⟨5, []⟩ : MovingAverageFilter).process
        (RawSensorData.raw_depth ⟨40, 5, 20, 12, 80, 90⟩)).2 :=
  (c10_calibration_on_depth_only ⟨40, 5, 20, 12, 80, 90⟩
    ⟨some [⟨0, 1⟩], none⟩).2.2.2 rfl

/-- On the two-element sample `[a, b]` the absolute deviation of `b` from
the mean equals the population standard deviation. -/
theorem pair_abs_dev (a b : ℝ) :
    |b - (calculateStats [a, b]).mean| = (calculateStats [a, b]).stdDev := by
  simp only [calculateStats_pair]
  rw [show b - (a + b) / 2 = (b - a) / 2 by ring, abs_div]
  norm_num

/-- On the two-element sample `[a, b]` the z-score of `b` is at most 1
(with the convention that division by a zero standard deviation gives 0,
matching the source where the comparison against the threshold is false in
that case). -/
theorem pair_z_le_one (a b : ℝ) :
    |(b - (calculateStats [a, b]).mean) /
      (calculateStats [a, b]).stdDev| ≤ 1 := by
  simp only [calculateStats_pair]
  rw [show b - (a + b) / 2 = (b - a) / 2 by ring]
  rcases eq_or_ne a b with h | h
  · subst h
    norm_num
  · have hsub : b - a ≠ 0 := sub_ne_zero.mpr (Ne.symm h)
    have h1 : |(b - a) / 2| = |b - a| / 2 := by
      rw [abs_div]
      norm_num
    have hne : |b - a| / 2 ≠ 0 := by positivity
    rw [abs_div, h1, abs_of_nonneg (by positivity : (0:ℝ) ≤ |b - a| / 2),
      div_self hne]

/-- The z-score outlier test at threshold 3 never fires on a two-element
sample when tested against one of its own elements. -/
theorem pair_not_outlier (a b : ℝ) :
    ¬ isOutlier b (calculateStats [a, b]).mean
      (calculateStats [a, b]).stdDev 3 := by
  intro hout
  have hle := pair_z_le_one a b
  unfold isOutlier at hout
  linarith

/-- The outlier flag emitted by `processSensorData` is never set. -/
theorem processSensorData_never_outlier (raw : RawSensorData)
    (res : CalibrationQueryResult) :
    ¬ (processSensorData raw res).is_outlier := by
  simp only [processSensorData_eq]
  exact pair_not_outlier raw.raw_depth raw.raw_depth

/-- C2: on the two-element sample `[smoothed_depth, raw_depth]` the
deviation of the raw depth from the mean equals the population standard
deviation, so the z-score is exactly 1 when the two values differ and 0
when they coincide (division by the zero standard deviation yields 0 here;
in the source it yields NaN, and the comparison with the threshold is
false either way); hence the score never exceeds the threshold 3 and
`processSensorData` returns a cleared outlier flag on every reading. -/
theorem c2_two_point_zscore (a b : ℝ) (raw : RawSensorData)
    (res : CalibrationQueryResult) :
    |b - (calculateStats [a, b]).mean| = (calculateStats [a, b]).stdDev ∧
    (a ≠ b → |(b - (calculateStats [a, b]).mean) /
        (calculateStats [a, b]).stdDev| = 1) ∧
    (a = b → |(b - (calculateStats [a, b]).mean) /
        (calculateStats [a, b]).stdDev| = 0) ∧
    ¬ isOutlier b (calculateStats [a, b]).mean
        (calculateStats [a, b]).stdDev 3 ∧
    ¬ (processSensorData raw res).is_outlier := by
  refine ⟨pair_abs_dev a b, ?_, ?_, pair_not_outlier a b,
    processSensorData_never_outlier raw res⟩
  · intro h
    simp only [calculateStats_pair]
    rw [show b - (a + b) / 2 = (b - a) / 2 by ring]
    have hsub : b - a ≠ 0 := sub_ne_zero.mpr (Ne.symm h)
    have h1 : |(b - a) / 2| = |b - a| / 2 := by
      rw [abs_div]
      norm_num
    have hne : |b - a| / 2 ≠ 0 := by positivity
    rw [abs_div, h1, abs_of_nonneg (by positivity : (0:ℝ) ≤ |b - a| / 2),
      div_self hne]
  · intro h
    subst h
    simp [calculateStats_pair]

/-- Witness for C2 at the sample [0, 2] and a concrete reading. -/
theorem c2_witness :
    |((2:ℝ) - (calculateStats [0, 2]).mean) /
        (calculateStats [0, 2]).stdDev| = 1 ∧
    ¬ (processSensorData ⟨100, 5, 20, 12, 80, 90⟩
        ⟨some [], none⟩).is_outlier :=
  ⟨(c2_two_point_zscore 0 2 ⟨100, 5, 20, 12, 80, 90⟩
      ⟨some [], none⟩).2.1 (by norm_num),
    (c2_two_point_zscore 0 2 ⟨100, 5, 20, 12, 80, 90⟩
      ⟨some [], none⟩).2.2.2.2⟩

/-- C4: when the two sample values coincide the population standard
deviation is 0, and the reading is not flagged as an outlier for any depth
value: the division by the zero standard deviation never makes the flag
true. -/
theorem c4_zero_stddev_not_flagged (d : ℝ) :
    (calculateStats [d, d]).stdDev = 0 ∧
    ¬ isOutlier d (calculateStats [d, d]).mean
      (calculateStats [d, d]).stdDev 3 := by
  refine ⟨?_, pair_not_outlier d d⟩
  simp [calculateStats_pair]

/-- C5: for every window size N ≥ 1 and every input sequence fed to one
filter instance, the k-th output (0-indexed here, so the k-th output is
the (k+1)-st call) is the arithmetic mean of the last min(k+1, N) inputs;
the first call on an empty filter returns its input, and a window-5 filter
fed [10, 12, 14, 16, 18] outputs [10, 11, 12, 13, 14]. -/
theorem c5_moving_average_is_mean_of_window (n : ℕ) (hn : 1 ≤ n)
    (xs : List ℝ) (k : ℕ) (hk : k < xs.length) :
    (processList ⟨(n : ℤ), []⟩ xs)[k]? =
      some ((lastN n (xs.take (k + 1))).sum /
        ((lastN n (xs.take (k + 1))).length : ℝ)) ∧
    (lastN n (xs.take (k + 1))).length = min (k + 1) n ∧
    (∀ x : ℝ, ((⟨(n : ℤ), []⟩ : MovingAverageFilter).process x).2 = x) ∧
    processList ⟨5, []⟩ [10, 12, 14, 16, 18] = [10, 11, 12, 13, 14] := by
  refine ⟨?_, ?_, ?_, ?_⟩
  · have h := processList_getElem n xs [] k hk
    have h0 : lastN n ([] : List ℝ) = [] := by simp [lastN]
    rw [h0] at h
    simpa using h
  · rw [lastN_length, List.length_take]
    omega
  · intro x
    rw [process_nil n hn x]
  · norm_num [processList, MovingAverageFilter.process]

/-- Witness for C5 at window size 5, the spec's scenario sequence and the
third call. -/
theorem c5_witness :
    (processList ⟨((5:ℕ) : ℤ), []⟩ [(10:ℝ), 12, 14, 16, 18])[2]? =
      some ((lastN 5 ([(10:ℝ), 12, 14, 16, 18].take 3)).sum /
        ((lastN 5 ([(10:ℝ), 12, 14, 16, 18].take 3)).length : ℝ)) ∧
    (lastN 5 ([(10:ℝ), 12, 14, 16, 18].take 3)).length = min 3 5 ∧
    (∀ x : ℝ, ((⟨((5:ℕ) : ℤ), []⟩ : MovingAverageFilter).process x).2 = x) ∧
    processList ⟨5, []⟩ [10, 12, 14, 16, 18] = [10, 11, 12, 13, 14] :=
  c5_moving_average_is_mean_of_window 5 (by norm_num)
    [10, 12, 14, 16, 18] 2 (by norm_num)

/-- C6: for every window size N ≥ 1 and any number of `process` calls the
internal sequence is exactly the last N inputs (FIFO eviction of the
oldest elements), so its length never exceeds N. -/
theorem c6_window_size_cap (n : ℕ) (_hn : 1 ≤ n) (xs : List ℝ) :
    processAll ⟨(n : ℤ), []⟩ xs = ⟨(n : ℤ), lastN n xs⟩ ∧
    (processAll ⟨(n : ℤ), []⟩ xs).values.length ≤ n := by
  have h := processAll_lastN n xs []
  have h0 : lastN n ([] : List ℝ) = [] := by simp [lastN]
  rw [h0] at h
  simp only [List.nil_append] at h
  refine ⟨h, ?_⟩
  rw [h]
  show (lastN n xs).length ≤ n
  rw [lastN_length]
  omega

/-- Witness for C6 at window size 2 and three inputs. -/
theorem c6_witness :
    processAll ⟨((2:ℕ) : ℤ), []⟩ [(1:ℝ), 2, 3] =
      ⟨((2:ℕ) : ℤ), lastN 2 [(1:ℝ), 2, 3]⟩ ∧
    (processAll ⟨((2:ℕ) : ℤ), []⟩ [(1:ℝ), 2, 3]).values.length ≤ 2 :=
  c6_window_size_cap 2 (by norm_num) [1, 2, 3]

/-- Counterexample for C7: constructing a filter with window size −1 ≤ 0
succeeds normally (no input-validation failure is raised); the source
constructor stores the window size without any check. -/
theorem c7_counterexample :
    MovingAverageFilter.construct (-1) = .ok ⟨-1, []⟩ ∧
    (MovingAverageFilter.construct (-1)).isOk = true := ⟨rfl, rfl⟩

/-- C7 amended: the constructor performs no validation, so a window size
N ≤ 0 is accepted silently and construction never fails; with such a
window every `process` call on the fresh filter immediately evicts the
value it pushed, leaving the internal sequence empty. -/
theorem c7_amended_no_validation (N : ℤ) (hN : N ≤ 0) (x : ℝ) :
    MovingAverageFilter.construct N = .ok ⟨N, []⟩ ∧
    ((⟨N, []⟩ : MovingAverageFilter).process x).1.values = [] := by
  refine ⟨rfl, ?_⟩
  simp only [MovingAverageFilter.process]
  split
  · simp
  · next h =>
      exfalso
      simp at h
      omega

/-- Witness for C7 (amended) at window size −1. -/
theorem c7_witness :
    MovingAverageFilter.construct (-1) = .ok ⟨-1, []⟩ ∧
    ((⟨-1, []⟩ : MovingAverageFilter).process 5).1.values = [] :=
  c7_amended_no_validation (-1) (by norm_num) 5

/-- C8: on a non-empty sample `calculateStats` returns the arithmetic mean
and the population standard deviation (sum of squared deviations divided
by N, not N−1, under the square root): the mean times N is the sum, the
squared standard deviation times N is the sum of squared deviations, the
standard deviation is non-negative, a singleton yields standard deviation
0, and on [0, 2] the result is mean 1 and standard deviation 1 (the
sample-variance convention dividing by N−1 would give √2 instead). -/
theorem c8_population_statistics (values : List ℝ) (h : values ≠ [])
    (x : ℝ) :
    (calculateStats values).mean * (values.length : ℝ) = values.sum ∧
    ((calculateStats values).stdDev) ^ 2 * (values.length : ℝ) =
      (values.map (fun b => (b - (calculateStats values).mean) ^ 2)).sum ∧
    0 ≤ (calculateStats values).stdDev ∧
    calculateStats [x] = ⟨x, 0⟩ ∧
    calculateStats [(0:ℝ), 2] = ⟨1, 1⟩ := by
  have hlen : (0:ℝ) < (values.length : ℝ) := by
    have : values.length ≠ 0 := by
      simpa [List.length_eq_zero] using h
    positivity
  have hne : (values.length : ℝ) ≠ 0 := ne_of_gt hlen
  refine ⟨?_, ?_, ?_, ?_, ?_⟩
  · show values.sum / (values.length : ℝ) * (values.length : ℝ) = values.sum
    exact div_mul_cancel₀ _ hne
  · have hmean : (calculateStats values).mean =
        values.sum / (values.length : ℝ) := rfl
    rw [hmean]
    have hvar : (0:ℝ) ≤
        (values.map
          (fun b => (b - values.sum / (values.length : ℝ)) ^ 2)).sum /
          (values.length : ℝ) := by
      refine div_nonneg ?_ (le_of_lt hlen)
      refine List.sum_nonneg ?_
      intro y hy
      rcases List.mem_map.mp hy with ⟨a, _, rfl⟩
      positivity
    show (Real.sqrt _) ^ 2 * (values.length : ℝ) = _
    rw [Real.sq_sqrt hvar, div_mul_cancel₀ _ hne]
  · exact Real.sqrt_nonneg _
  · unfold calculateStats
    simp [Stats.mk.injEq]
  · rw [calculateStats_pair]
    norm_num [Stats.mk.injEq]

/-- Witness for C8 at the sample [0, 2] and singleton value 7. -/
theorem c8_witness :
    (calculateStats [(0:ℝ), 2]).mean * (([(0:ℝ), 2].length : ℕ) : ℝ) =
      [(0:ℝ), 2].sum ∧
    ((calculateStats [(0:ℝ), 2]).stdDev) ^ 2 * (([(0:ℝ), 2].length : ℕ) : ℝ) =
      ([(0:ℝ), 2].map
        (fun b => (b - (calculateStats [(0:ℝ), 2]).mean) ^ 2)).sum ∧
    0 ≤ (calculateStats [(0:ℝ), 2]).stdDev ∧
    calculateStats [(7:ℝ)] = ⟨7, 0⟩ ∧
    calculateStats [(0:ℝ), 2] = ⟨1, 1⟩ :=
  c8_population_statistics [0, 2] (by simp) 7

end AquaDepth
